import Mathlib

/-!
Verification development for the outbound-sales campaign workflow
(`src/workflow.py`).

The program is a linear per-company pipeline driven by external services
(HTTP fetch, HTML extraction, an LLM, the Hunter.io contact API, the Gmail
draft API and the Google Sheets append API).  We embed the repository's own
control flow faithfully; the outputs of the external collaborators (HTTP
responses, LLM completions, parsed HTML text, API success booleans) are
inputs of the embedding, drawn from an explicit per-company environment.
Side effects (component invocations and the rows sent to the two spreadsheet
logs) are recorded as an explicit event trace.

Machine-level Python details that the control flow depends on are embedded
exactly: `urllib.parse.urlparse` netloc/path splitting (including the
`ValueError` raised on an unbalanced-bracket host), `str.replace` (which
replaces every occurrence), `str.strip`, and Python truthiness of strings,
lists and `None`.
-/

namespace Workflow

/-! ## Python string primitives -/

/-- ASCII whitespace recognised by Python's `str.strip` / `str.isspace`
(the inputs in scope are ASCII; the extra Unicode whitespace code points
accepted by CPython are irrelevant here). -/
def pyIsSpace (c : Char) : Bool :=
  c = ' ' || c = '\t' || c = '\n' || c = '\x0d' || c = '\x0b' || c = '\x0c'

/-- Python `str.strip()` on a character list: remove leading and trailing
whitespace. -/
def pyStripL (s : List Char) : List Char :=
  ((s.dropWhile pyIsSpace).reverse.dropWhile pyIsSpace).reverse

/-- Python `str.strip()`. -/
def pyStrip (s : String) : String :=
  ⟨pyStripL s.data⟩

/-- Python `str.replace(old, new)` for a non-empty pattern `old`: scan left
to right, replacing each non-overlapping occurrence.  `skip` counts the
remaining characters of an occurrence already matched, still to be
consumed (structural recursion on the scanned list). -/
def pyReplaceAux (old new : List Char) : Nat → List Char → List Char
  | _, [] => []
  | skip + 1, _ :: rest => pyReplaceAux old new skip rest
  | 0, c :: rest =>
    if old.isPrefixOf (c :: rest) then
      new ++ pyReplaceAux old new (old.length - 1) rest
    else
      c :: pyReplaceAux old new 0 rest

/-- Python `str.replace(old, new)` (for an empty `old` the call sites in the
source never pass one; we return the string unchanged). -/
def pyReplace (s old new : String) : String :=
  match old.data with
  | [] => s
  | o :: os => ⟨pyReplaceAux (o :: os) new.data 0 s.data⟩

/-! ## `urllib.parse.urlparse`: the netloc/path fragment used by the code

`find_contacts_hunter` uses only `parsed.netloc` and `parsed.path`.  We
embed the corresponding part of CPython's `urlsplit`:
input sanitisation, scheme removal, `_splitnetloc`, the bracket sanity
check that raises `ValueError("Invalid IPv6 URL")`, and the fragment/query
splits that leave the path. -/

/-- Characters allowed in a URL scheme after the initial letter. -/
def schemeChar (c : Char) : Bool :=
  c.isAlphanum || c = '+' || c = '-' || c = '.'

/-- CPython strips leading/trailing C0 controls and space, then deletes all
tabs, carriage returns and newlines. -/
def sanitizeUrl (s : List Char) : List Char :=
  let stripped := ((s.dropWhile (fun c => c.toNat ≤ 0x20)).reverse.dropWhile
    (fun c => c.toNat ≤ 0x20)).reverse
  stripped.filter (fun c => ¬ (c = '\t' || c = '\x0d' || c = '\n'))

/-- Drop the `scheme:` prefix when the text before the first colon is a
well-formed scheme (starts with an ASCII letter, rest in `schemeChar`). -/
def dropScheme (s : List Char) : List Char :=
  match s.findIdx? (· = ':') with
  | none => s
  | some i =>
    let pre := s.take i
    match pre with
    | [] => s
    | c0 :: _ =>
      if c0.isAlpha && pre.all schemeChar then s.drop (i + 1) else s

/-- Exceptions that can escape the embedded fragments of the program. -/
inductive PyExc
  | valueError
  | unboundLocal
  deriving DecidableEq, Repr

/-- After the scheme is removed: when the remainder starts with `//`, split
off the network location (up to the first `/`, `?` or `#`) and check host
brackets; otherwise the netloc is empty.  Returns `(netloc, rest)`. -/
def splitNetloc (s : List Char) : Except PyExc (List Char × List Char) :=
  match s with
  | '/' :: '/' :: rest =>
    let netloc := rest.takeWhile (fun c => ¬ (c = '/' || c = '?' || c = '#'))
    let rem := rest.dropWhile (fun c => ¬ (c = '/' || c = '?' || c = '#'))
    if (netloc.contains '[' && ¬ netloc.contains ']') ||
       (netloc.contains ']' && ¬ netloc.contains '[') then
      .error .valueError
    else
      .ok (netloc, rem)
  | _ => .ok ([], s)

/-- The `(netloc, path)` pair of `urllib.parse.urlparse(url)`, or the
`ValueError` it raises on an unbalanced bracketed host. -/
def urlparseNetlocPath (url : String) : Except PyExc (String × String) :=
  match splitNetloc (dropScheme (sanitizeUrl url.data)) with
  | .error e => .error e
  | .ok (netloc, rest) =>
    .ok (⟨netloc⟩, ⟨(rest.takeWhile (· ≠ '#')).takeWhile (· ≠ '?')⟩)

/-! ## `find_contacts_hunter`

The function derives the domain from the company URL, then issues one HTTP
request to the Hunter.io domain-search endpoint.  The HTTP outcome is an
input of the embedding (`HunterHttp`).  The `except` handler at the end of
the Python function returns a record that references `domain`; when
`urlparse` itself raised (before `domain` was assigned), that reference
raises `UnboundLocalError`, which escapes the function. -/

/-- One entry of Hunter.io's `emails` list; `.get(key, '')` defaults are
already folded into the fields. -/
structure EmailEntry where
  value : String
  first_name : String
  last_name : String
  deriving DecidableEq, Repr

/-- Outcome of the HTTP request to Hunter.io, at the interface boundary:
the request chain raised (network error, timeout, non-2xx status, bad
JSON), or it returned a JSON object whose `data` member is truthy
(with its `emails` list and `organization`), or one whose `data` member is
missing or falsy. -/
inductive HunterHttp
  | exc
  | okData (emails : List EmailEntry) (organization : String)
  | okNoData
  deriving Repr

/-- The record returned by `find_contacts_hunter`. -/
structure ContactRecord where
  emails : List EmailEntry
  organization : String
  domain : String
  deriving DecidableEq, Repr

/-- Domain derivation inside `find_contacts_hunter`:
`parsed = urlparse(company_url)`,
`domain = parsed.netloc if parsed.netloc else parsed.path`,
`domain = domain.replace('www.', '')`. -/
def hunterDomain (company_url : String) : Except PyExc String :=
  match urlparseNetlocPath company_url with
  | .error e => .error e
  | .ok (netloc, path) =>
    .ok (pyReplace (if netloc ≠ "" then netloc else path) "www." "")

/-- `find_contacts_hunter(company_url)` given the HTTP outcome `h`.
When `urlparse` raises, control reaches the `except` branch with `domain`
unbound and the `return {... 'domain': domain}` raises `UnboundLocalError`;
otherwise every exception is caught and a record with an empty email list
and the computed domain is returned. -/
def find_contacts_hunter (company_url : String) (h : HunterHttp) :
    Except PyExc ContactRecord :=
  match hunterDomain company_url with
  | .error _ => .error .unboundLocal
  | .ok domain =>
    match h with
    | .exc => .ok ⟨[], "", domain⟩
    | .okData emails organization => .ok ⟨emails, organization, domain⟩
    | .okNoData => .ok ⟨[], "", domain⟩

/-! ## Campaign runner (`outbound_sales_workflow`)

Per company, the loop body runs steps 1-5 inside a `try`; the `except`
catches any exception, increments `errors` and continues.  The outputs of
the external collaborators for one company are collected in `CompanyEnv`:
* `fetch`: the return of `fetch_website_content` (`None` on any caught
  fetch failure, per its own `try`/`except`);
* `extract`: the text returned by `extract_text_from_html` (an external
  HTML-parser call; `""` on parse failure);
* `summary`, `body`, `subject`: the three LLM completions (each `""` on a
  caught LLM failure);
* `hunter`: the Hunter.io HTTP outcome;
* `draftOk`: the boolean returned by `create_gmail_draft` (which catches
  every exception internally).
The two sheet-append helpers `update_success_log` / `log_failed_lookup`
catch `HttpError` and return a boolean that the loop ignores; their effect
is the appended row, recorded in the event trace. -/

structure CompanyEnv where
  fetch : Option String
  extract : String
  summary : String
  hunter : HunterHttp
  body : String
  subject : String
  draftOk : Bool

/-- Terminal classification of one company. -/
inductive Outcome
  | success
  | failure
  | error
  deriving DecidableEq, Repr

/-- Observable effects: which components are invoked, with the rows sent to
the success/failure logs. -/
inductive Event
  | fetchCalled (url : String)
  | extractCalled
  | summarizeCalled
  | hunterCalled (url : String)
  | composeBodyCalled
  | composeSubjectCalled
  | publishCalled (toAddr subject body : String)
  | successRow (row : List String)
  | failureRow (row : List String)
  deriving DecidableEq, Repr

/-- `update_success_log`: appends `[company_url, contact_email,
contact_name]` to the `Success!A:C` range (its boolean return is ignored by
the caller). -/
def update_success_log (company_url contact_email contact_name : String) :
    List Event :=
  [.successRow [company_url, contact_email, contact_name]]

/-- `log_failed_lookup`: appends `[domain]` to the `Failures!A:A` range. -/
def log_failed_lookup (domain : String) : List Event :=
  [.failureRow [domain]]

/-- The `try` block of one loop iteration (steps 1-5).  Returns the events
in order, and either the raised exception or the pair
(classification, was `processed` incremented).  Early `continue` paths
(steps 1-3) classify `error` without reaching `processed += 1`; every
step-5 path reaches it. -/
def processCompanyBody (url : String) (env : CompanyEnv) :
    List Event × Except PyExc (Outcome × Bool) :=
  let ev1 := [Event.fetchCalled url]
  match env.fetch with
  | none => (ev1, .ok (.error, false))
  | some html =>
    if html = "" then (ev1, .ok (.error, false)) else
    let ev2 := ev1 ++ [Event.extractCalled]
    if env.extract = "" then (ev2, .ok (.error, false)) else
    let ev3 := ev2 ++ [Event.summarizeCalled]
    if env.summary = "" then (ev3, .ok (.error, false)) else
    let ev4 := ev3 ++ [Event.hunterCalled url]
    match find_contacts_hunter url env.hunter with
    | .error e => (ev4, .error e)
    | .ok hunter_data =>
      match hunter_data.emails with
      | first_email :: _ =>
        let contact_email := first_email.value
        let contact_name :=
          pyStrip (first_email.first_name ++ " " ++ first_email.last_name)
        let ev5 := ev4 ++ [Event.composeBodyCalled, Event.composeSubjectCalled]
        if env.body ≠ "" ∧ env.subject ≠ "" then
          let ev6 := ev5 ++ [Event.publishCalled contact_email env.subject env.body]
          if env.draftOk then
            (ev6 ++ update_success_log url contact_email contact_name,
             .ok (.success, true))
          else
            (ev6, .ok (.error, true))
        else
          (ev5, .ok (.error, true))
      | [] =>
        (ev4 ++ log_failed_lookup hunter_data.domain, .ok (.failure, true))

/-- One loop iteration with its `except Exception` handler: a raised
exception is classified `error` and `processed` is not incremented. -/
def processCompany (url : String) (env : CompanyEnv) :
    List Event × Outcome × Bool :=
  match processCompanyBody url env with
  | (ev, .ok r) => (ev, r)
  | (ev, .error _) => (ev, .error, false)

/-- The `results` counter dictionary. -/
structure Tally where
  processed : Nat
  successes : Nat
  failures : Nat
  errors : Nat
  deriving DecidableEq, Repr

/-- Add one company's classification to the tally. -/
def Tally.add (t : Tally) (o : Outcome) (p : Bool) : Tally :=
  let t' :=
    match o with
    | .success => { t with successes := t.successes + 1 }
    | .failure => { t with failures := t.failures + 1 }
    | .error => { t with errors := t.errors + 1 }
  if p then { t' with processed := t'.processed + 1 } else t'

/-- `outbound_sales_workflow`: fold the loop over the company list (each
company paired with its external-world responses).  Returns the final
tally and the concatenated event trace. -/
def outbound_sales_workflow : List (String × CompanyEnv) → Tally × List Event
  | [] => (⟨0, 0, 0, 0⟩, [])
  | (url, env) :: rest =>
    let (ev, o, p) := processCompany url env
    let (t, evs) := outbound_sales_workflow rest
    (t.add o p, ev ++ evs)

/-! ## `read_company_urls_from_sheets`

The Sheets API returns `values` as a list of rows (lists of cell strings);
this list is the input of the embedding.  The code returns `[]` when
`values` is empty and otherwise evaluates the comprehension
`[row[0] for row in values[1:] if row and row[0].strip()]`
(the `except HttpError` branch, returning `[]`, is external-API behaviour
at the interface boundary). -/

/-- The list comprehension
`[row[0] for row in values[1:] if row and row[0].strip()]` applied to
`values[1:]`: keep `row[0]` (unstripped) for each non-empty row whose first
cell is truthy after `strip()`. -/
def urlsComprehension : List (List String) → List String
  | [] => []
  | row :: rest =>
    match row with
    | [] => urlsComprehension rest
    | cell :: _ =>
      if pyStrip cell ≠ "" then cell :: urlsComprehension rest
      else urlsComprehension rest

/-- `read_company_urls_from_sheets` on the rows returned by the API. -/
def read_company_urls_from_sheets (values : List (List String)) : List String :=
  if values.isEmpty then []
  else urlsComprehension (values.drop 1)

/-! ## `__main__`: exit codes

The top level reads the URLs, exits `1` when none were read, runs the
workflow, and exits `0` iff `results['processed'] > 0 and
results['errors'] < len(company_urls)`, else `1`; `except
KeyboardInterrupt` exits `130` and `except Exception` exits `1`. -/

/-- How far the top-level `try` got: the workflow ran to completion on the
given companies, or a `KeyboardInterrupt` reached `__main__`, or some other
exception did. -/
inductive MainRun
  | completed (cos : List (String × CompanyEnv))
  | interrupted
  | fatal

/-- The process exit status chosen by `__main__`. -/
def mainExitCode : MainRun → Nat
  | .interrupted => 130
  | .fatal => 1
  | .completed cos =>
    if cos.isEmpty then 1
    else
      let results := (outbound_sales_workflow cos).1
      if 0 < results.processed ∧ results.errors < cos.length then 0 else 1

/-! ## Trace projections -/

/-- Rows appended to the success log (`Success!A:C`) in a trace. -/
def successRows (evs : List Event) : List (List String) :=
  evs.filterMap fun e =>
    match e with
    | .successRow r => some r
    | _ => none

/-- Rows appended to the failure log (`Failures!A:A`) in a trace. -/
def failureRows (evs : List Event) : List (List String) :=
  evs.filterMap fun e =>
    match e with
    | .failureRow r => some r
    | _ => none

/-! ## Helper lemmas -/

/-- Adding one classified company raises the three-way count by one. -/
lemma Tally.add_sum (t : Tally) (o : Outcome) (p : Bool) :
    (t.add o p).successes + (t.add o p).failures + (t.add o p).errors
      = t.successes + t.failures + t.errors + 1 := by
  cases o <;> cases p <;> simp [Tally.add] <;> omega

/-- Adding one classified company raises `processed` by at most one. -/
lemma Tally.add_processed (t : Tally) (o : Outcome) (p : Bool) :
    (t.add o p).processed = t.processed + (if p then 1 else 0) := by
  cases o <;> cases p <;> simp [Tally.add]

/-- The three outcome counters always sum to the number of companies. -/
lemma tally_sum_eq_length (cos : List (String × CompanyEnv)) :
    (outbound_sales_workflow cos).1.successes
      + (outbound_sales_workflow cos).1.failures
      + (outbound_sales_workflow cos).1.errors = cos.length := by
  induction cos with
  | nil => rfl
  | cons c rest ih =>
    obtain ⟨url, env⟩ := c
    simp only [outbound_sales_workflow]
    rw [Tally.add_sum]
    simp [ih]

/-! ## Claim theorems -/

/-- C1: for every list of company URLs given to the campaign runner, each
URL causes exactly one of the counters {successes, failures, errors} to be
incremented, and at the end of the run
`successes + failures + errors` equals the number of company URLs. -/
theorem C1_outcome_counts_partition_input :
    (∀ cos : List (String × CompanyEnv),
      (outbound_sales_workflow cos).1.successes
        + (outbound_sales_workflow cos).1.failures
        + (outbound_sales_workflow cos).1.errors = cos.length) ∧
    (∀ (url : String) (env : CompanyEnv) (rest : List (String × CompanyEnv)),
      ((outbound_sales_workflow ((url, env) :: rest)).1.successes
          = (outbound_sales_workflow rest).1.successes + 1 ∧
        (outbound_sales_workflow ((url, env) :: rest)).1.failures
          = (outbound_sales_workflow rest).1.failures ∧
        (outbound_sales_workflow ((url, env) :: rest)).1.errors
          = (outbound_sales_workflow rest).1.errors) ∨
      ((outbound_sales_workflow ((url, env) :: rest)).1.successes
          = (outbound_sales_workflow rest).1.successes ∧
        (outbound_sales_workflow ((url, env) :: rest)).1.failures
          = (outbound_sales_workflow rest).1.failures + 1 ∧
        (outbound_sales_workflow ((url, env) :: rest)).1.errors
          = (outbound_sales_workflow rest).1.errors) ∨
      ((outbound_sales_workflow ((url, env) :: rest)).1.successes
          = (outbound_sales_workflow rest).1.successes ∧
        (outbound_sales_workflow ((url, env) :: rest)).1.failures
          = (outbound_sales_workflow rest).1.failures ∧
        (outbound_sales_workflow ((url, env) :: rest)).1.errors
          = (outbound_sales_workflow rest).1.errors + 1)) := by
  refine ⟨tally_sum_eq_length, ?_⟩
  intro url env rest
  rcases h : processCompany url env with ⟨ev, o, p⟩
  simp only [outbound_sales_workflow, h]
  cases o <;> cases p <;> simp [Tally.add]

/-- C9: `processed` is bounded by the three-way outcome count on every run,
and for a concrete input (one company whose fetch fails) the run ends with
`processed` strictly smaller than `successes + failures + errors`, so the
equation `processed = successes + failures + errors` is false in
general. -/
theorem C9_processed_strictly_undercounts :
    (∀ cos : List (String × CompanyEnv),
      (outbound_sales_workflow cos).1.processed
        ≤ (outbound_sales_workflow cos).1.successes
          + (outbound_sales_workflow cos).1.failures
          + (outbound_sales_workflow cos).1.errors) ∧
    ((outbound_sales_workflow
        [("http://a.com", ⟨none, "", "", .exc, "", "", false⟩)]).1.processed
      < (outbound_sales_workflow
          [("http://a.com", ⟨none, "", "", .exc, "", "", false⟩)]).1.successes
        + (outbound_sales_workflow
            [("http://a.com", ⟨none, "", "", .exc, "", "", false⟩)]).1.failures
        + (outbound_sales_workflow
            [("http://a.com", ⟨none, "", "", .exc, "", "", false⟩)]).1.errors) := by
  constructor
  · intro cos
    induction cos with
    | nil => simp [outbound_sales_workflow]
    | cons c rest ih =>
      obtain ⟨url, env⟩ := c
      rcases h : processCompany url env with ⟨ev, o, p⟩
      simp only [outbound_sales_workflow, h]
      have h1 := Tally.add_sum (outbound_sales_workflow rest).1 o p
      have h2 := Tally.add_processed (outbound_sales_workflow rest).1 o p
      cases p <;> simp at h2 <;> omega
  · decide

/-- C6: the process exit status is `0` exactly when some company URLs were
read, at least one company was processed and not all companies errored
(`errors ≠ number of companies`; `errors` never exceeds it by C1's sum); it
is `1` on empty input or a top-level exception, and `130` — distinct from
both — on `KeyboardInterrupt`. -/
theorem C6_exit_status :
    (∀ cos : List (String × CompanyEnv),
      (mainExitCode (.completed cos) = 0 ↔
        cos ≠ [] ∧ 0 < (outbound_sales_workflow cos).1.processed ∧
          (outbound_sales_workflow cos).1.errors ≠ cos.length)) ∧
    mainExitCode (.completed []) = 1 ∧
    (∀ cos, mainExitCode (.completed cos) = 0 ∨
      mainExitCode (.completed cos) = 1) ∧
    mainExitCode .fatal = 1 ∧
    mainExitCode .interrupted = 130 ∧
    mainExitCode .interrupted ≠ 0 ∧ mainExitCode .interrupted ≠ 1 := by
  have hmain : ∀ cos : List (String × CompanyEnv),
      (mainExitCode (.completed cos) = 0 ↔
        cos ≠ [] ∧ 0 < (outbound_sales_workflow cos).1.processed ∧
          (outbound_sales_workflow cos).1.errors ≠ cos.length) := by
    intro cos
    have hsum := tally_sum_eq_length cos
    cases cos with
    | nil => simp [mainExitCode]
    | cons c rest =>
      simp only [mainExitCode, List.isEmpty_cons, Bool.false_eq_true,
        if_false, ne_eq, reduceCtorEq, not_false_eq_true, true_and]
      constructor
      · intro h
        by_cases hcond : 0 < (outbound_sales_workflow (c :: rest)).1.processed ∧
            (outbound_sales_workflow (c :: rest)).1.errors < (c :: rest).length
        · exact ⟨hcond.1, by omega⟩
        · rw [if_neg hcond] at h
          exact absurd h one_ne_zero
      · intro ⟨hp, he⟩
        rw [if_pos ⟨hp, by omega⟩]
  refine ⟨hmain, rfl, ?_, rfl, rfl, by decide, by decide⟩
  intro cos
  by_cases h : mainExitCode (.completed cos) = 0
  · exact Or.inl h
  · right
    cases cos with
    | nil => rfl
    | cons c rest =>
      simp only [mainExitCode, List.isEmpty_cons, Bool.false_eq_true, if_false]
      simp only [mainExitCode, List.isEmpty_cons, Bool.false_eq_true, if_false] at h
      rw [if_neg]
      intro hcond
      exact h (if_pos hcond)

/-- C2: when the body of one company's loop iteration raises any exception,
the `except` handler classifies that company as `error` (`errors` grows by
one, `processed` does not), and the run on the remaining companies is
unchanged — its tally and trace compose with this company's, so no single
company's exception aborts the campaign. -/
theorem C2_company_exception_contained
    (url : String) (env : CompanyEnv) (e : PyExc)
    (rest : List (String × CompanyEnv))
    (h : (processCompanyBody url env).2 = .error e) :
    processCompany url env = ((processCompanyBody url env).1, .error, false) ∧
    (outbound_sales_workflow ((url, env) :: rest)).1
      = ((outbound_sales_workflow rest).1).add .error false ∧
    (outbound_sales_workflow ((url, env) :: rest)).1.errors
      = (outbound_sales_workflow rest).1.errors + 1 ∧
    (outbound_sales_workflow ((url, env) :: rest)).1.processed
      = (outbound_sales_workflow rest).1.processed ∧
    (outbound_sales_workflow ((url, env) :: rest)).2
      = (processCompanyBody url env).1 ++ (outbound_sales_workflow rest).2 := by
  rcases hb : processCompanyBody url env with ⟨ev, r⟩
  rw [hb] at h
  simp only at h
  subst h
  simp [processCompany, outbound_sales_workflow, hb, Tally.add]

/-- Witness for C2 at a concrete input: the bracket URL makes
`find_contacts_hunter` raise, the company is classified `error`, and the
loop state composes with the (empty) remainder. -/
theorem C2_company_exception_contained_witness :
    (processCompanyBody "http://[::1"
        ⟨some "h", "t", "s", .exc, "", "", false⟩).2
      = .error .unboundLocal ∧
    (processCompany "http://[::1" ⟨some "h", "t", "s", .exc, "", "", false⟩
        = ((processCompanyBody "http://[::1"
            ⟨some "h", "t", "s", .exc, "", "", false⟩).1, .error, false) ∧
      (outbound_sales_workflow
          [("http://[::1", ⟨some "h", "t", "s", .exc, "", "", false⟩)]).1
        = ((outbound_sales_workflow []).1).add .error false ∧
      (outbound_sales_workflow
          [("http://[::1", ⟨some "h", "t", "s", .exc, "", "", false⟩)]).1.errors
        = (outbound_sales_workflow []).1.errors + 1 ∧
      (outbound_sales_workflow
          [("http://[::1", ⟨some "h", "t", "s", .exc, "", "", false⟩)]).1.processed
        = (outbound_sales_workflow []).1.processed ∧
      (outbound_sales_workflow
          [("http://[::1", ⟨some "h", "t", "s", .exc, "", "", false⟩)]).2
        = (processCompanyBody "http://[::1"
            ⟨some "h", "t", "s", .exc, "", "", false⟩).1
          ++ (outbound_sales_workflow []).2) :=
  ⟨rfl, C2_company_exception_contained _ _ .unboundLocal [] rfl⟩

/-- C8: when the content fetch fails (the fetch task returns an absent
result), the company is classified `error`, `processed` is not
incremented, and the trace of that company is exactly the fetch call — no
extractor, summarizer, contact finder, composer, publisher or logger is
invoked. -/
theorem C8_fetch_failure_invokes_nothing_else
    (url : String) (env : CompanyEnv) (h : env.fetch = none) :
    processCompany url env = ([Event.fetchCalled url], .error, false) := by
  simp [processCompany, processCompanyBody, h]

/-- Witness for C8 at a concrete input. -/
theorem C8_fetch_failure_invokes_nothing_else_witness :
    (⟨none, "x", "y", .okNoData, "b", "s", true⟩ : CompanyEnv).fetch = none ∧
    processCompany "http://a.com" ⟨none, "x", "y", .okNoData, "b", "s", true⟩
      = ([Event.fetchCalled "http://a.com"], .error, false) :=
  ⟨rfl, C8_fetch_failure_invokes_nothing_else _ _ rfl⟩

/-- C5: for a company that passed steps 1-3, whose lookup found at least
one email and whose body and subject were generated non-empty: on publish
success the company is classified `success` and exactly one success-log
row `[url, email, name]` is appended (no failure-log row); on publish
failure it is classified `error` and neither log receives a row. -/
theorem C5_publish_branch_frame
    (url html : String) (env : CompanyEnv)
    (hf : env.fetch = some html) (hhtml : html ≠ "")
    (hx : env.extract ≠ "") (hs : env.summary ≠ "")
    (rec : ContactRecord) (first : EmailEntry) (restE : List EmailEntry)
    (hr : find_contacts_hunter url env.hunter = .ok rec)
    (he : rec.emails = first :: restE)
    (hb : env.body ≠ "") (hsub : env.subject ≠ "") :
    ((processCompany url { env with draftOk := true }).2.1 = .success ∧
      successRows (processCompany url { env with draftOk := true }).1
        = [[url, first.value,
            pyStrip (first.first_name ++ " " ++ first.last_name)]] ∧
      failureRows (processCompany url { env with draftOk := true }).1 = []) ∧
    ((processCompany url { env with draftOk := false }).2.1 = .error ∧
      successRows (processCompany url { env with draftOk := false }).1 = [] ∧
      failureRows (processCompany url { env with draftOk := false }).1
        = []) := by
  constructor <;>
    simp [processCompany, processCompanyBody, hf, hhtml, hx, hs, hr, he, hb,
      hsub, successRows, failureRows, update_success_log, log_failed_lookup]

/-- Witness for C5 at a concrete input: one contact
`{value: a@x.com, first_name: A, last_name: B}`, non-empty generated
content; the success branch logs `["https://x.com", "a@x.com", "A B"]`. -/
theorem C5_publish_branch_frame_witness :
    find_contacts_hunter "https://x.com" (.okData [⟨"a@x.com", "A", "B"⟩] "Org")
      = .ok ⟨[⟨"a@x.com", "A", "B"⟩], "Org", "x.com"⟩ ∧
    pyStrip ("A" ++ " " ++ "B") = "A B" ∧
    (((processCompany "https://x.com"
        { (⟨some "h", "t", "s", .okData [⟨"a@x.com", "A", "B"⟩] "Org",
            "b", "subj", true⟩ : CompanyEnv) with draftOk := true }).2.1
          = .success ∧
      successRows (processCompany "https://x.com"
        { (⟨some "h", "t", "s", .okData [⟨"a@x.com", "A", "B"⟩] "Org",
            "b", "subj", true⟩ : CompanyEnv) with draftOk := true }).1
        = [["https://x.com", "a@x.com",
            pyStrip ("A" ++ " " ++ "B")]] ∧
      failureRows (processCompany "https://x.com"
        { (⟨some "h", "t", "s", .okData [⟨"a@x.com", "A", "B"⟩] "Org",
            "b", "subj", true⟩ : CompanyEnv) with draftOk := true }).1
        = []) ∧
    ((processCompany "https://x.com"
        { (⟨some "h", "t", "s", .okData [⟨"a@x.com", "A", "B"⟩] "Org",
            "b", "subj", true⟩ : CompanyEnv) with draftOk := false }).2.1
          = .error ∧
      successRows (processCompany "https://x.com"
        { (⟨some "h", "t", "s", .okData [⟨"a@x.com", "A", "B"⟩] "Org",
            "b", "subj", true⟩ : CompanyEnv) with draftOk := false }).1
        = [] ∧
      failureRows (processCompany "https://x.com"
        { (⟨some "h", "t", "s", .okData [⟨"a@x.com", "A", "B"⟩] "Org",
            "b", "subj", true⟩ : CompanyEnv) with draftOk := false }).1
        = [])) :=
  ⟨rfl, rfl,
    C5_publish_branch_frame "https://x.com" "h"
      ⟨some "h", "t", "s", .okData [⟨"a@x.com", "A", "B"⟩] "Org",
        "b", "subj", true⟩
      rfl (by decide) (by decide) (by decide)
      ⟨[⟨"a@x.com", "A", "B"⟩], "Org", "x.com"⟩ ⟨"a@x.com", "A", "B"⟩ []
      rfl rfl (by decide) (by decide)⟩

/-- C7: for a company that passed steps 1-3 and whose contact lookup
completed normally with zero emails, the company is classified `failure`
(not `error`), `processed` is incremented, and exactly one failure-log row
`[domain]` is appended (no success-log row). -/
theorem C7_empty_lookup_logged_as_failure
    (url html : String) (env : CompanyEnv)
    (hf : env.fetch = some html) (hhtml : html ≠ "")
    (hx : env.extract ≠ "") (hs : env.summary ≠ "")
    (rec : ContactRecord)
    (hr : find_contacts_hunter url env.hunter = .ok rec)
    (he : rec.emails = []) :
    (processCompany url env).2.1 = .failure ∧
    (processCompany url env).2.1 ≠ .error ∧
    (processCompany url env).2.2 = true ∧
    failureRows (processCompany url env).1 = [[rec.domain]] ∧
    successRows (processCompany url env).1 = [] := by
  simp [processCompany, processCompanyBody, hf, hhtml, hx, hs, hr, he,
    successRows, failureRows, update_success_log, log_failed_lookup]

/-- Witness for C7 at the claim's concrete input: a lookup for
`https://www.example.com/path` (derived domain `example.com`) returning
zero emails appends exactly the row `["example.com"]`. -/
theorem C7_empty_lookup_logged_as_failure_witness :
    find_contacts_hunter "https://www.example.com/path" .okNoData
      = .ok ⟨[], "", "example.com"⟩ ∧
    ((processCompany "https://www.example.com/path"
        ⟨some "h", "t", "s", .okNoData, "", "", false⟩).2.1 = .failure ∧
      (processCompany "https://www.example.com/path"
        ⟨some "h", "t", "s", .okNoData, "", "", false⟩).2.1 ≠ .error ∧
      (processCompany "https://www.example.com/path"
        ⟨some "h", "t", "s", .okNoData, "", "", false⟩).2.2 = true ∧
      failureRows (processCompany "https://www.example.com/path"
        ⟨some "h", "t", "s", .okNoData, "", "", false⟩).1
        = [["example.com"]] ∧
      successRows (processCompany "https://www.example.com/path"
        ⟨some "h", "t", "s", .okNoData, "", "", false⟩).1 = []) :=
  ⟨rfl,
    C7_empty_lookup_logged_as_failure "https://www.example.com/path" "h"
      ⟨some "h", "t", "s", .okNoData, "", "", false⟩
      rfl (by decide) (by decide) (by decide)
      ⟨[], "", "example.com"⟩ rfl rfl⟩

/-- Domain derivation as the claim words it: the network-location component
(falling back to the path), with only a leading `www.` prefix stripped and
every other occurrence of `www.` left intact. -/
def claimDomainLeadingWww (company_url : String) : Except PyExc String :=
  match urlparseNetlocPath company_url with
  | .error e => .error e
  | .ok (netloc, path) =>
    let domain := if netloc ≠ "" then netloc else path
    .ok (if "www.".data.isPrefixOf domain.data
      then ⟨domain.data.drop 4⟩ else domain)

/-- Counterexample to C3: for `https://app.www.example.com/x` the code's
`domain.replace('www.', '')` removes the interior `www.` as well, yielding
`app.example.com`, while the claim (strip only a leading `www.` prefix)
predicts `app.www.example.com`. -/
theorem C3_counterexample_interior_www_removed :
    hunterDomain "https://app.www.example.com/x" = .ok "app.example.com" ∧
    claimDomainLeadingWww "https://app.www.example.com/x"
      = .ok "app.www.example.com" ∧
    (Except.ok "app.example.com" : Except PyExc String)
      ≠ .ok "app.www.example.com" :=
  ⟨rfl, rfl, by intro h; simp at h⟩

/-- C3 amended: the contact finder derives the domain by parsing the URL,
taking the network-location component (falling back to the path when
absent) and removing every occurrence of `www.` (Python
`str.replace('www.', '')`), not only a leading prefix; for
`https://www.example.com/path` the derived domain is `example.com`. -/
theorem C3_domain_derivation_removes_all_www
    (url netloc path : String) (hh : HunterHttp)
    (hparse : urlparseNetlocPath url = .ok (netloc, path)) :
    (∃ rec : ContactRecord, find_contacts_hunter url hh = .ok rec ∧
      rec.domain = pyReplace (if netloc ≠ "" then netloc else path)
        "www." "") ∧
    hunterDomain "https://www.example.com/path" = .ok "example.com" := by
  have hd : hunterDomain url
      = .ok (pyReplace (if netloc ≠ "" then netloc else path) "www." "") := by
    simp [hunterDomain, hparse]
  refine ⟨?_, rfl⟩
  simp only [find_contacts_hunter, hd]
  cases hh with
  | exc => exact ⟨_, rfl, rfl⟩
  | okData emails organization => exact ⟨_, rfl, rfl⟩
  | okNoData => exact ⟨_, rfl, rfl⟩

/-- Witness for the amended C3 at the claim's concrete input. -/
theorem C3_domain_derivation_removes_all_www_witness :
    urlparseNetlocPath "https://www.example.com/path"
      = .ok ("www.example.com", "/path") ∧
    ((∃ rec : ContactRecord,
        find_contacts_hunter "https://www.example.com/path" .okNoData
          = .ok rec ∧
        rec.domain = pyReplace
          (if "www.example.com" ≠ "" then "www.example.com" else "/path")
          "www." "") ∧
      hunterDomain "https://www.example.com/path" = .ok "example.com") :=
  ⟨rfl, C3_domain_derivation_removes_all_www "https://www.example.com/path"
    "www.example.com" "/path" .okNoData rfl⟩

/-- C4 (code defect): for a company URL on which `urlparse` itself raises
(`http://[::1` raises `ValueError: Invalid IPv6 URL` before `domain` is
assigned), `find_contacts_hunter` does not return the documented record —
its `except` handler references the unbound `domain` and the call raises
`UnboundLocalError`, for every possible HTTP outcome. -/
theorem C4_lookup_error_path_raises_unbound_domain :
    (∀ hh : HunterHttp, find_contacts_hunter "http://[::1" hh
      = .error .unboundLocal) ∧
    urlparseNetlocPath "http://[::1" = .error .valueError ∧
    (∀ hh : HunterHttp, ∀ rec : ContactRecord,
      find_contacts_hunter "http://[::1" hh ≠ .ok rec) := by
  refine ⟨fun hh => rfl, rfl, fun hh rec h => ?_⟩
  rw [show find_contacts_hunter "http://[::1" hh = .error .unboundLocal
    from rfl] at h
  exact Except.noConfusion h

/-- Python list comprehension semantics for the sheet read, stated as
filter-then-map. -/
lemma urlsComprehension_eq_filter_map (rows : List (List String)) :
    urlsComprehension rows
      = (rows.filter fun row =>
          !row.isEmpty && (pyStrip (row.headD "") != "")).map
        (fun row => row.headD "") := by
  induction rows with
  | nil => rfl
  | cons row rest ih =>
    cases row with
    | nil => simpa [urlsComprehension, List.filter] using ih
    | cons c cs =>
      by_cases h : pyStrip c = ""
      · have hb : (pyStrip c != "") = false := by simp [h]
        simp [urlsComprehension, List.filter, h, hb, ih]
      · have hb : (pyStrip c != "") = true := by simp [h]
        simp [urlsComprehension, List.filter, h, hb, ih]

/-- C10: the sheet reader drops the first row unconditionally (even when it
holds a valid URL), keeps among the remaining rows exactly those that are
non-empty with a first cell that is not empty or whitespace-only, and
returns their (unstripped) first cells in sheet order. -/
theorem C10_sheet_read_drops_header_filters_blank
    (values : List (List String)) :
    read_company_urls_from_sheets values
      = ((values.drop 1).filter fun row =>
          !row.isEmpty && (pyStrip (row.headD "") != "")).map
        (fun row => row.headD "") ∧
    read_company_urls_from_sheets [["https://valid.example"]] = [] ∧
    read_company_urls_from_sheets
        [["header"], [" https://a.com "], [], [" "], ["", "x"]]
      = [" https://a.com "] := by
  refine ⟨?_, rfl, by decide⟩
  cases values with
  | nil => rfl
  | cons v rest =>
    simp [read_company_urls_from_sheets, urlsComprehension_eq_filter_map]

end Workflow
